import Mathlib

/-!
# googleapi: the OAuth2 transport of `oauth2.go`

A shallow embedding of `ClientForJWT` and `oauthTransport.RoundTrip`.

* Go's `error` values are modelled by their messages (`String`); `nil` is `none`.
* `time.Time` is an instant in nanoseconds on one timeline, `time.Duration` is a
  signed 64-bit count of nanoseconds whose arithmetic wraps.
* A `[]string` is a slice header (backing array, offset, length, capacity) over a
  memory of backing arrays; `http.Header` (a `map[string][]string`) is an
  association list from keys to slice headers, one entry per key. Copying a map
  entry copies the slice header, not the strings behind it.
* The network, the clock and the wrapped `http.RoundTripper` live in a world of
  an arbitrary type `σ`, passed through every call. The wrapped `RoundTripper`
  reads the request it is handed and does not write to it.
* `RoundTrip` also records a chronological trace of its calls to `t.authenticate`
  and `t.rt.RoundTrip`; the trace is observation only and steers nothing.
-/

namespace googleapi

/-! ## time -/

/-- Value of `time.Time`: nanoseconds since a fixed origin. -/
structure Time where
  ns : Int
  deriving DecidableEq, Repr

/-- Wrap-around of a signed 64-bit integer. -/
def wrapInt64 (x : Int) : Int := (x + 2 ^ 63) % 2 ^ 64 - 2 ^ 63

/-- Constant `time.Second`, in nanoseconds. -/
def Second : Int := 1000000000

/-- Product of two `time.Duration` values (`int64` multiplication). -/
def Duration.mul (a b : Int) : Int := wrapInt64 (a * b)

/-- Method `Time.Add`. -/
def Time.Add (t : Time) (d : Int) : Time := ⟨t.ns + d⟩

/-- Method `Time.After`: `t.After u` reports whether `t` is after `u`. -/
def Time.After (t u : Time) : Bool := decide (u.ns < t.ns)

/-! ## slices and their memory -/

/-- A value of type `[]string`: `len` strings of backing array `arr` from index `off`
on, with room for `cap` before a new array is needed. -/
structure Slice where
  arr : Nat
  off : Nat
  len : Nat
  cap : Nat
  deriving DecidableEq, Repr

/-- The nil slice, which is what a map read yields for an absent key. -/
def Slice.nil : Slice := ⟨0, 0, 0, 0⟩

/-- The backing arrays: `cell a i` is element `i` of array `a`; the arrays below
`next` are allocated. -/
structure Heap where
  cell : Nat → Nat → String
  next : Nat

/-- A memory holding the given arrays, numbered from 0. -/
def Heap.ofArrays (arrays : List (List String)) : Heap :=
  ⟨fun a i => (arrays.getD a []).getD i "", arrays.length⟩

/-- The strings of a slice. -/
def Heap.read (m : Heap) (s : Slice) : List String :=
  (List.range s.len).map (fun i => m.cell s.arr (s.off + i))

/-- The built-in `append(s, v)`. With spare capacity the string is written into the
backing array of `s`, right after its last element; otherwise the elements and `v`
go to a newly allocated array (its capacity, here the doubling of small slices, is the
choice of the runtime). -/
def Heap.append (m : Heap) (s : Slice) (v : String) : Heap × Slice :=
  if s.len < s.cap then
    (⟨fun a i => if a = s.arr ∧ i = s.off + s.len then v else m.cell a i, m.next⟩,
     { s with len := s.len + 1 })
  else
    (⟨fun a i =>
        if a = m.next then
          if i < s.len then m.cell s.arr (s.off + i) else if i = s.len then v else ""
        else m.cell a i,
      m.next + 1⟩,
     ⟨m.next, 0, s.len + 1, max (s.len + 1) (2 * s.cap)⟩)

/-! ## headers, requests, responses -/

/-- Type `http.Header`, a map from keys to slices. -/
abbrev Header := List (String × Slice)

/-- Map read `h[key]`: the nil slice when the key is absent. -/
def Header.index (h : Header) (key : String) : Slice :=
  match h.lookup key with
  | some s => s
  | none => Slice.nil

/-- Map write `h[key] = s`. -/
def Header.set : Header → String → Slice → Header
  | [], key, s => [(key, s)]
  | (k, u) :: rest, key, s =>
    if k = key then (k, s) :: rest else (k, u) :: Header.set rest key s

/-- Method `Header.Add`: `h[key] = append(h[key], value)`. The only key used here,
"Authorization", is already in canonical MIME form. -/
def Header.Add (m : Heap) (h : Header) (key value : String) : Heap × Header :=
  ((m.append (Header.index h key) value).1,
   Header.set h key (m.append (Header.index h key) value).2)

/-- The loop `for k, v := range req.Header { newHeader[k] = v }` into a fresh map:
every entry of the new map is the slice header of the old one. -/
def cloneHeader (h : Header) : Header :=
  h.foldl (fun n kv => Header.set n kv.1 kv.2) []

/-- Keys of a header, each at most once in a Go map. -/
def Header.keys (h : Header) : List String := h.map Prod.fst

/-- Type `http.Request`, as far as the transport touches it. -/
structure Request where
  Method : String
  URL : String
  Body : String
  Header : Header
  deriving DecidableEq, Repr

/-- What a reader of a request finds at one moment: its fields, and under every key
of its header the strings of the slice stored there. -/
structure Snapshot where
  Method : String
  URL : String
  Body : String
  Header : List (String × List String)
  deriving DecidableEq, Repr

/-- The request as read in memory `m`. -/
def Request.snapshot (req : Request) (m : Heap) : Snapshot :=
  ⟨req.Method, req.URL, req.Body, req.Header.map (fun kv => (kv.1, m.read kv.2))⟩

/-- The values read under a key: none when the key is absent. -/
def Snapshot.get (s : Snapshot) (key : String) : List String :=
  match s.Header.lookup key with
  | some v => v
  | none => []

/-- Type `http.Response`, as far as the transport touches it. -/
structure Response where
  StatusCode : Int
  Status : String
  Body : String
  deriving DecidableEq, Repr

/-- Constant `http.StatusUnauthorized`. -/
def StatusUnauthorized : Int := 401

/-- Result pair `(resp, err)` of an `http.RoundTripper`. -/
abbrev ExecResult := Option Response × Option String

/-! ## the transport -/

/-- Mutable fields `token` and `expiration` of `oauthTransport`. -/
structure oauthTransport where
  token : String
  expiration : Time
  deriving DecidableEq, Repr

/-- Function-valued fields `rt` and `authenticate` of `oauthTransport`, together
with the clock `time.Now`. `rt` is given the request as it reads at the moment of the
call. `authenticate` is a `func() error` closed over the transport: it may rewrite
the mutable fields and returns its error. -/
structure Deps (σ : Type) where
  Now : σ → Time
  rt : Snapshot → σ → ExecResult × σ
  authenticate : oauthTransport → σ → Option String × oauthTransport × σ

/-- One observed call. `roundTrip` carries the request handed to `t.rt.RoundTrip` as
it reads at that moment, the mutable fields of the transport at that moment, and
what the call returned. -/
inductive Event where
  | authenticate (err : Option String)
  | roundTrip (req : Snapshot) (t : oauthTransport) (res : ExecResult)
  deriving DecidableEq, Repr

/-- How a call of `RoundTrip` ends: with its results `(resp, err)`, or in the
run-time panic of reading `resp.StatusCode` through a nil `resp`. -/
inductive Outcome where
  | returned (resp : Option Response) (err : Option String)
  | panicked
  deriving DecidableEq, Repr

/-- Everything observable after a call of `RoundTrip`: how it ended, the transport,
the request object of the caller and the memory its header points into, the world,
and the calls made. -/
structure Run (σ : Type) where
  outcome : Outcome
  t : oauthTransport
  req : Request
  heap : Heap
  world : σ
  trace : List Event

/-- The test `t.token == "" || now.After(t.expiration)`. -/
def needsToken (t : oauthTransport) (now : Time) : Bool :=
  t.token == "" || now.After t.expiration

/-- The block `if t.token == "" || now.After(t.expiration) { t.authenticate() }`;
the first component is the error of `authenticate`, if it was called and failed. -/
def ensureToken {σ : Type} (d : Deps σ) (now : Time) (t : oauthTransport) (w : σ)
    (tr : List Event) : Option String × oauthTransport × σ × List Event :=
  if needsToken t now then
    match d.authenticate t w with
    | (e, t1, w1) => (e, t1, w1, tr ++ [Event.authenticate e])
  else (none, t, w, tr)

/-- The statement `newHeader.Add("Authorization", "Bearer "+t.token)`, seen through
the request object whose `Header` field is `newHeader`. -/
def addToken (req : Request) (m : Heap) (t : oauthTransport) : Request × Heap :=
  ({ req with Header := (Header.Add m req.Header "Authorization" ("Bearer " ++ t.token)).2 },
   (Header.Add m req.Header "Authorization" ("Bearer " ++ t.token)).1)

/-- The loop `for tries := 0; tries < 2; tries++`, with `n = 2 - tries` iterations
left. `req` is the request object, whose `Header` field is the map `newHeader`
for the duration of the loop; `m` is the memory; `resp` and `err` are the named
results. -/
def attempts {σ : Type} (d : Deps σ) (now : Time) :
    Nat → oauthTransport → Request → Heap → σ → List Event → Option Response →
      Option String → Run σ
  | 0, t, req, m, w, tr, resp, err => ⟨Outcome.returned resp err, t, req, m, w, tr⟩
  | n + 1, t, req, m, w, tr, _, _ =>
    match ensureToken d now t w tr with
    | (some e, t1, w1, tr1) =>
      ⟨Outcome.returned none (some ("Authorization failed: " ++ e)), t1, req, m, w1, tr1⟩
    | (none, t1, w1, tr1) =>
      let req1 := (addToken req m t1).1
      let m1 := (addToken req m t1).2
      match d.rt (req1.snapshot m1) w1 with
      | ((none, err1), w2) =>
        ⟨Outcome.panicked, t1, req1, m1, w2,
          tr1 ++ [Event.roundTrip (req1.snapshot m1) t1 (none, err1)]⟩
      | ((some r, err1), w2) =>
        let tr2 := tr1 ++ [Event.roundTrip (req1.snapshot m1) t1 (some r, err1)]
        if r.StatusCode ≠ StatusUnauthorized then
          ⟨Outcome.returned (some r) err1, t1, req1, m1, w2, tr2⟩
        else attempts d now n t1 req1 m1 w2 tr2 (some r) err1

/-- Method `oauthTransport.RoundTrip` on the request object `req` in memory `m`. The
header map is cloned and swapped in, the clock is read once, the loop runs, and the
deferred function puts the old map back on every way out, the panic included. -/
def RoundTrip {σ : Type} (d : Deps σ) (t : oauthTransport) (req : Request) (m : Heap)
    (w : σ) : Run σ :=
  let newHeader := cloneHeader req.Header
  let oldHeader := req.Header
  let now := d.Now w
  let run := attempts d now 2 t { req with Header := newHeader } m w [] none none
  { run with req := { run.req with Header := oldHeader } }

/-- What the caller reads from its request object after the call. -/
def Run.seen {σ : Type} (run : Run σ) : Snapshot := run.req.snapshot run.heap

/-! ## `ClientForJWT` -/

/-- What `client.PostForm` followed by `json.NewDecoder(resp.Body).Decode(&result)`
yields: a failed post, a body that does not decode, or the decoded fields
`error`, `access_token` and `expires_in` (an `int64`). -/
inductive Exchange where
  | postFailed (err : String)
  | decodeFailed (err : String)
  | decoded (Error AccessToken : String) (ExpiresIn : Int)
  deriving DecidableEq, Repr

/-- Type `http.Client` with the process-wide `http.DefaultTransport` and the clock. -/
structure Client (σ : Type) where
  Now : σ → Time
  PostForm : String → List (String × List String) → σ → Exchange × σ
  Transport : Option (Snapshot → σ → ExecResult × σ)
  DefaultTransport : Snapshot → σ → ExecResult × σ

/-- The closure `rt.authenticate` built by `ClientForJWT`. The clock is read in the
world the exchange has left behind, after the response is decoded. -/
def ClientForJWT.authenticate {σ : Type} (jwt : String) (client : Client σ)
    (t : oauthTransport) (w : σ) : Option String × oauthTransport × σ :=
  let params := [("grant_type", ["urn:ietf:params:oauth:grant-type:jwt-bearer"]),
                 ("assertion", [jwt])]
  match client.PostForm "https://accounts.google.com/o/oauth2/token" params w with
  | (Exchange.postFailed err, w1) =>
    (some ("Failed to contact OAuth2 service: " ++ err), t, w1)
  | (Exchange.decodeFailed err, w1) =>
    (some ("Failed to decode response: " ++ err), t, w1)
  | (Exchange.decoded error accessToken expiresIn, w1) =>
    if error ≠ "" then (some ("Failed: " ++ error), t, w1)
    else if accessToken = "" then (some "No access token received", t, w1)
    else
      (none,
       { token := accessToken
         expiration := (client.Now w1).Add (Duration.mul expiresIn Second) },
       w1)

/-- Function `ClientForJWT`: the function-valued fields of the transport it builds. -/
def ClientForJWT {σ : Type} (jwt : String) (client : Client σ) : Deps σ where
  Now := client.Now
  rt := match client.Transport with
    | some rt => rt
    | none => client.DefaultTransport
  authenticate := ClientForJWT.authenticate jwt client

/-- The mutable fields of a transport fresh from `ClientForJWT`: the zero values. -/
def oauthTransport.zero : oauthTransport := ⟨"", ⟨0⟩⟩

/-! ## reading a trace -/

/-- Number of calls of `t.authenticate` in a trace. -/
def authCalls : List Event → Nat
  | [] => 0
  | Event.authenticate _ :: tr => authCalls tr + 1
  | Event.roundTrip _ _ _ :: tr => authCalls tr

/-- The calls of `t.rt.RoundTrip` in a trace, in order. -/
def execCalls : List Event → List (Snapshot × oauthTransport × ExecResult)
  | [] => []
  | Event.authenticate _ :: tr => execCalls tr
  | Event.roundTrip req t res :: tr => (req, t, res) :: execCalls tr

/-! ## a scripted world for concrete runs -/

/-- A world with a clock reading and the replies the token endpoint and the wrapped
transport will give, in order. -/
structure Script where
  clock : Time
  exchanges : List Exchange
  replies : List ExecResult
  deriving DecidableEq, Repr

/-- The client over a scripted world whose clock stands still. -/
def scriptClient : Client Script where
  Now := fun s => s.clock
  PostForm := fun _ _ s =>
    match s.exchanges with
    | [] => (Exchange.postFailed "EOF", s)
    | x :: xs => (x, { s with exchanges := xs })
  Transport := none
  DefaultTransport := fun _ s =>
    match s.replies with
    | [] => ((none, some "EOF"), s)
    | r :: rs => (r, { s with replies := rs })

/-- The client over a scripted world in which every exchange with the token endpoint
takes five seconds of the clock. -/
def slowClient : Client Script where
  Now := fun s => s.clock
  PostForm := fun _ _ s =>
    match s.exchanges with
    | [] => (Exchange.postFailed "EOF", { s with clock := s.clock.Add (5 * Second) })
    | x :: xs => (x, { s with clock := s.clock.Add (5 * Second), exchanges := xs })
  Transport := none
  DefaultTransport := fun _ s =>
    match s.replies with
    | [] => ((none, some "EOF"), s)
    | r :: rs => (r, { s with replies := rs })

/-- A response with the given status code. -/
def respOf (code : Int) : Response := ⟨code, "", ""⟩

/-- A GET request object with the given header map. -/
def getReq (h : Header) : Request := ⟨"GET", "https://example.org/", "", h⟩

/-- A GET request read with the given header values. -/
def getSeen (h : List (String × List String)) : Snapshot :=
  ⟨"GET", "https://example.org/", "", h⟩

/-! ## lemmas on slices and headers -/

theorem Heap.read_append (m : Heap) (s : Slice) (v : String) :
    (m.append s v).1.read (m.append s v).2 = m.read s ++ [v] := by
  unfold Heap.append
  by_cases h : s.len < s.cap
  · simp only [h, if_true, Heap.read, List.range_succ, List.map_append, List.map_cons,
      List.map_nil]
    congr 1
    · apply List.map_congr_left
      intro i hi
      have hi2 : i < s.len := List.mem_range.mp hi
      have hne : ¬ (s.off + i = s.off + s.len) := by omega
      simp [hne]
  · simp only [h, if_false, Heap.read, List.range_succ, List.map_append, List.map_cons,
      List.map_nil]
    congr 1
    · apply List.map_congr_left
      intro i hi
      have hi2 : i < s.len := List.mem_range.mp hi
      simp [hi2]
    · simp

theorem Header.index_set (h : Header) (key : String) (s : Slice) :
    Header.index (Header.set h key s) key = s := by
  induction h with
  | nil => simp [Header.set, Header.index, List.lookup]
  | cons p rest ih =>
    obtain ⟨k, u⟩ := p
    by_cases hk : k = key
    · simp [Header.set, Header.index, List.lookup, hk]
    · have hne : (key == k) = false := by
        simp only [beq_eq_false_iff_ne, ne_eq]
        exact fun h => hk h.symm
      simp only [Header.index] at ih
      simp [Header.set, Header.index, List.lookup, hk, hne, ih]

theorem Header.set_of_not_mem (n : Header) (key : String) (s : Slice)
    (h : key ∉ Header.keys n) : Header.set n key s = n ++ [(key, s)] := by
  induction n with
  | nil => rfl
  | cons p rest ih =>
    obtain ⟨k, u⟩ := p
    simp only [Header.keys, List.map_cons, List.mem_cons, not_or] at h
    have hk : ¬ k = key := fun e => h.1 e.symm
    simp only [Header.set, hk, if_false, List.cons_append]
    rw [ih (by simpa [Header.keys] using h.2)]

theorem foldl_set_eq (l n : Header) (h : (Header.keys (n ++ l)).Nodup) :
    l.foldl (fun n kv => Header.set n kv.1 kv.2) n = n ++ l := by
  induction l generalizing n with
  | nil => simp
  | cons p rest ih =>
    obtain ⟨k, u⟩ := p
    have hk : k ∉ Header.keys n := by
      simp only [Header.keys, List.map_append, List.map_cons] at h
      have := (List.nodup_append.mp h).2.2
      intro hm
      exact this hm (List.mem_cons_self _ _)
    simp only [List.foldl_cons]
    rw [Header.set_of_not_mem n k u hk, ih]
    · simp
    · simpa using h

theorem cloneHeader_eq (h : Header) (hk : (Header.keys h).Nodup) : cloneHeader h = h := by
  unfold cloneHeader
  rw [foldl_set_eq h [] (by simpa using hk)]
  simp

/-- Reading a key of a request is reading the slice its header holds there. -/
theorem snapshot_get (req : Request) (m : Heap) (key : String) :
    (req.snapshot m).get key = m.read (Header.index req.Header key) := by
  obtain ⟨me, u, b, h⟩ := req
  simp only [Request.snapshot, Snapshot.get, Header.index]
  induction h with
  | nil => simp [List.lookup, Slice.nil, Heap.read]
  | cons p rest ih =>
    obtain ⟨k, s⟩ := p
    cases hk : key == k
    · simpa [List.lookup, hk] using ih
    · simp [List.lookup, hk]

theorem get_addToken (rq : Request) (m : Heap) (t : oauthTransport) :
    ((addToken rq m t).1.snapshot (addToken rq m t).2).get "Authorization" =
      (rq.snapshot m).get "Authorization" ++ ["Bearer " ++ t.token] := by
  rw [snapshot_get, snapshot_get]
  simp only [addToken, Header.Add, Header.index_set]
  exact Heap.read_append m _ _

theorem needsToken_eq_true (t : oauthTransport) (now : Time) :
    needsToken t now = true ↔ (t.token = "" ∨ t.expiration.ns < now.ns) := by
  simp [needsToken, Time.After]

theorem needsToken_eq_false (t : oauthTransport) (now : Time) :
    needsToken t now = false ↔ (t.token ≠ "" ∧ now.ns ≤ t.expiration.ns) := by
  simp [needsToken, Time.After]

/-! ## lemmas on traces and on the loop -/

theorem authCalls_append (a b : List Event) :
    authCalls (a ++ b) = authCalls a + authCalls b := by
  induction a with
  | nil => simp [authCalls]
  | cons e rest ih => cases e <;> simp [authCalls, ih]; omega

theorem execCalls_append (a b : List Event) :
    execCalls (a ++ b) = execCalls a ++ execCalls b := by
  induction a with
  | nil => simp [execCalls]
  | cons e rest ih => cases e <;> simp [execCalls, ih]

/-- The two ways through the freshness block. -/
theorem ensureToken_cases {σ : Type} (d : Deps σ) (now : Time) (t : oauthTransport) (w : σ)
    (tr : List Event) :
    (needsToken t now = true ∧
      ensureToken d now t w tr =
        ((d.authenticate t w).1, (d.authenticate t w).2.1, (d.authenticate t w).2.2,
          tr ++ [Event.authenticate (d.authenticate t w).1])) ∨
    (needsToken t now = false ∧ ensureToken d now t w tr = (none, t, w, tr)) := by
  unfold ensureToken
  cases hn : needsToken t now
  · right
    simp
  · left
    simp

/-- The four ways through one iteration of the loop. -/
theorem attempts_succ_cases {σ : Type} (d : Deps σ) (now : Time) (n : Nat) (t : oauthTransport)
    (rq : Request) (m : Heap) (w : σ) (tr : List Event) (resp : Option Response)
    (err : Option String) :
    (∃ e t1 w1 tr1, ensureToken d now t w tr = (some e, t1, w1, tr1) ∧
      attempts d now (n + 1) t rq m w tr resp err =
        ⟨Outcome.returned none (some ("Authorization failed: " ++ e)), t1, rq, m, w1, tr1⟩) ∨
    (∃ t1 w1 tr1 e1 w2, ensureToken d now t w tr = (none, t1, w1, tr1) ∧
      d.rt ((addToken rq m t1).1.snapshot (addToken rq m t1).2) w1 = ((none, e1), w2) ∧
      attempts d now (n + 1) t rq m w tr resp err =
        ⟨Outcome.panicked, t1, (addToken rq m t1).1, (addToken rq m t1).2, w2,
          tr1 ++ [Event.roundTrip ((addToken rq m t1).1.snapshot (addToken rq m t1).2) t1
            (none, e1)]⟩) ∨
    (∃ t1 w1 tr1 r e1 w2, ensureToken d now t w tr = (none, t1, w1, tr1) ∧
      d.rt ((addToken rq m t1).1.snapshot (addToken rq m t1).2) w1 = ((some r, e1), w2) ∧
      r.StatusCode ≠ StatusUnauthorized ∧
      attempts d now (n + 1) t rq m w tr resp err =
        ⟨Outcome.returned (some r) e1, t1, (addToken rq m t1).1, (addToken rq m t1).2, w2,
          tr1 ++ [Event.roundTrip ((addToken rq m t1).1.snapshot (addToken rq m t1).2) t1
            (some r, e1)]⟩) ∨
    (∃ t1 w1 tr1 r e1 w2, ensureToken d now t w tr = (none, t1, w1, tr1) ∧
      d.rt ((addToken rq m t1).1.snapshot (addToken rq m t1).2) w1 = ((some r, e1), w2) ∧
      r.StatusCode = StatusUnauthorized ∧
      attempts d now (n + 1) t rq m w tr resp err =
        attempts d now n t1 (addToken rq m t1).1 (addToken rq m t1).2 w2
          (tr1 ++ [Event.roundTrip ((addToken rq m t1).1.snapshot (addToken rq m t1).2) t1
            (some r, e1)]) (some r) e1) := by
  rcases h : ensureToken d now t w tr with ⟨_ | e, t1, w1, tr1⟩
  · rcases h2 : d.rt ((addToken rq m t1).1.snapshot (addToken rq m t1).2) w1
      with ⟨⟨_ | r, e1⟩, w2⟩
    · right; left
      exact ⟨t1, w1, tr1, e1, w2, rfl, h2, by simp only [attempts, h, h2]⟩
    · by_cases hs : r.StatusCode = StatusUnauthorized
      · right; right; right
        exact ⟨t1, w1, tr1, r, e1, w2, rfl, h2, hs, by simp [attempts, h, h2, hs]⟩
      · right; right; left
        exact ⟨t1, w1, tr1, r, e1, w2, rfl, h2, hs, by simp [attempts, h, h2, hs]⟩
  · left
    exact ⟨e, t1, w1, tr1, rfl, by simp only [attempts, h]⟩

/-- What a result of the freshness block says about how it was reached. -/
theorem ensureToken_eq {σ : Type} {d : Deps σ} {now : Time} {t : oauthTransport} {w : σ}
    {tr : List Event} {e : Option String} {t1 : oauthTransport} {w1 : σ} {tr1 : List Event}
    (h : ensureToken d now t w tr = (e, t1, w1, tr1)) :
    (needsToken t now = true ∧ d.authenticate t w = (e, t1, w1) ∧
      tr1 = tr ++ [Event.authenticate e]) ∨
    (needsToken t now = false ∧ e = none ∧ t1 = t ∧ w1 = w ∧ tr1 = tr) := by
  rcases ensureToken_cases d now t w tr with ⟨hn, hc⟩ | ⟨hn, hc⟩
  · left
    rw [hc] at h
    simp only [Prod.mk.injEq] at h
    obtain ⟨h1, h2, h3, h4⟩ := h
    refine ⟨hn, ?_, ?_⟩
    · rw [← h1, ← h2, ← h3]
    · rw [← h4, h1]
  · right
    rw [hc] at h
    simp only [Prod.mk.injEq] at h
    obtain ⟨h1, h2, h3, h4⟩ := h
    exact ⟨hn, h1.symm, h2.symm, h3.symm, h4.symm⟩

theorem ensureToken_execCalls {σ : Type} {d : Deps σ} {now : Time} {t : oauthTransport} {w : σ}
    {tr : List Event} {e : Option String} {t1 : oauthTransport} {w1 : σ} {tr1 : List Event}
    (h : ensureToken d now t w tr = (e, t1, w1, tr1)) : execCalls tr1 = execCalls tr := by
  rcases ensureToken_eq h with ⟨_, _, h3⟩ | ⟨_, _, _, _, h3⟩
  · rw [h3]
    simp [execCalls_append, execCalls]
  · rw [h3]

theorem ensureToken_trace {σ : Type} {d : Deps σ} {now : Time} {t : oauthTransport} {w : σ}
    {tr : List Event} {e : Option String} {t1 : oauthTransport} {w1 : σ} {tr1 : List Event}
    (h : ensureToken d now t w tr = (e, t1, w1, tr1)) : ∃ ext, tr1 = tr ++ ext := by
  rcases ensureToken_eq h with ⟨_, _, h3⟩ | ⟨_, _, _, _, h3⟩
  · exact ⟨_, h3⟩
  · exact ⟨[], by simp [h3]⟩

theorem attempts_fresh {σ : Type} (d : Deps σ) (now : Time) (n : Nat) (t : oauthTransport)
    (rq : Request) (m : Heap) (w : σ) (tr : List Event) (resp : Option Response)
    (err : Option String) (hn : needsToken t now = false) :
    (attempts d now n t rq m w tr resp err).t = t ∧
      authCalls (attempts d now n t rq m w tr resp err).trace = authCalls tr := by
  induction n generalizing rq m w tr resp err with
  | zero => simp [attempts]
  | succ n ih =>
    have key : ∀ {e : Option String} {t1 : oauthTransport} {w1 : σ} {tr1 : List Event},
        ensureToken d now t w tr = (e, t1, w1, tr1) → e = none ∧ t1 = t ∧ tr1 = tr := by
      intro e t1 w1 tr1 h
      rcases ensureToken_eq h with ⟨h1, _, _⟩ | ⟨_, h2, h3, _, h5⟩
      · rw [hn] at h1
        exact absurd h1 (by simp)
      · exact ⟨h2, h3, h5⟩
    rcases attempts_succ_cases d now n t rq m w tr resp err with
      ⟨e, t1, w1, tr1, h, _⟩ | ⟨t1, w1, tr1, e1, w2, h, _, hr⟩ |
      ⟨t1, w1, tr1, r, e1, w2, h, _, _, hr⟩ | ⟨t1, w1, tr1, r, e1, w2, h, _, _, hr⟩
    · exact absurd (key h).1 (by simp)
    · obtain ⟨_, h2, h3⟩ := key h
      subst h2 h3
      rw [hr]
      simp [authCalls_append, authCalls]
    · obtain ⟨_, h2, h3⟩ := key h
      subst h2 h3
      rw [hr]
      simp [authCalls_append, authCalls]
    · obtain ⟨_, h2, h3⟩ := key h
      subst h2 h3
      rw [hr]
      refine ⟨(ih _ _ _ _ _ _).1, ?_⟩
      rw [(ih _ _ _ _ _ _).2]
      simp [authCalls_append, authCalls]

theorem attempts_trace {σ : Type} (d : Deps σ) (now : Time) (n : Nat) (t : oauthTransport)
    (rq : Request) (m : Heap) (w : σ) (tr : List Event) (resp : Option Response)
    (err : Option String) :
    ∃ ext, (attempts d now n t rq m w tr resp err).trace = tr ++ ext := by
  induction n generalizing t rq m w tr resp err with
  | zero => exact ⟨[], by simp [attempts]⟩
  | succ n ih =>
    rcases attempts_succ_cases d now n t rq m w tr resp err with
      ⟨e, t1, w1, tr1, h, hr⟩ | ⟨t1, w1, tr1, e1, w2, h, _, hr⟩ |
      ⟨t1, w1, tr1, r, e1, w2, h, _, _, hr⟩ | ⟨t1, w1, tr1, r, e1, w2, h, _, _, hr⟩
    · obtain ⟨x, hx⟩ := ensureToken_trace h
      exact ⟨x, by rw [hr, hx]⟩
    · obtain ⟨x, hx⟩ := ensureToken_trace h
      exact ⟨x ++ [Event.roundTrip ((addToken rq m t1).1.snapshot (addToken rq m t1).2) t1
        (none, e1)], by rw [hr, hx]; simp⟩
    · obtain ⟨x, hx⟩ := ensureToken_trace h
      exact ⟨x ++ [Event.roundTrip ((addToken rq m t1).1.snapshot (addToken rq m t1).2) t1
        (some r, e1)], by rw [hr, hx]; simp⟩
    · obtain ⟨x, hx⟩ := ensureToken_trace h
      obtain ⟨y, hy⟩ := ih t1 (addToken rq m t1).1 (addToken rq m t1).2 w2
        (tr1 ++ [Event.roundTrip ((addToken rq m t1).1.snapshot (addToken rq m t1).2) t1
          (some r, e1)]) (some r) e1
      exact ⟨x ++ [Event.roundTrip ((addToken rq m t1).1.snapshot (addToken rq m t1).2) t1
        (some r, e1)] ++ y, by rw [hr, hy, hx]; simp⟩

theorem attempts_execCalls_le {σ : Type} (d : Deps σ) (now : Time) (n : Nat) (t : oauthTransport)
    (rq : Request) (m : Heap) (w : σ) (tr : List Event) (resp : Option Response)
    (err : Option String) :
    (execCalls (attempts d now n t rq m w tr resp err).trace).length ≤
      (execCalls tr).length + n := by
  induction n generalizing t rq m w tr resp err with
  | zero => simp [attempts]
  | succ n ih =>
    rcases attempts_succ_cases d now n t rq m w tr resp err with
      ⟨e, t1, w1, tr1, h, hr⟩ | ⟨t1, w1, tr1, e1, w2, h, _, hr⟩ |
      ⟨t1, w1, tr1, r, e1, w2, h, _, _, hr⟩ | ⟨t1, w1, tr1, r, e1, w2, h, _, _, hr⟩
    · rw [hr]
      simp [ensureToken_execCalls h]
    · rw [hr]
      simp [execCalls_append, execCalls, ensureToken_execCalls h]
    · rw [hr]
      simp [execCalls_append, execCalls, ensureToken_execCalls h]
    · rw [hr]
      refine le_trans (ih _ _ _ _ _ _ _) ?_
      simp [execCalls_append, execCalls, ensureToken_execCalls h]
      omega

theorem attempts_execCalls_bearer {σ : Type} (d : Deps σ) (now : Time) (n : Nat)
    (t : oauthTransport) (rq : Request) (m : Heap) (w : σ) (tr : List Event)
    (resp : Option Response) (err : Option String) :
    ∀ c ∈ execCalls (attempts d now n t rq m w tr resp err).trace,
      c ∈ execCalls tr ∨
        (c.1.get "Authorization").getLast? = some ("Bearer " ++ c.2.1.token) := by
  induction n generalizing t rq m w tr resp err with
  | zero =>
    intro c hc
    left
    simpa [attempts] using hc
  | succ n ih =>
    intro c hc
    rcases attempts_succ_cases d now n t rq m w tr resp err with
      ⟨e, t1, w1, tr1, h, hr⟩ | ⟨t1, w1, tr1, e1, w2, h, _, hr⟩ |
      ⟨t1, w1, tr1, r, e1, w2, h, _, _, hr⟩ | ⟨t1, w1, tr1, r, e1, w2, h, _, _, hr⟩
    · rw [hr] at hc
      left
      simpa [ensureToken_execCalls h] using hc
    · rw [hr] at hc
      simp only [execCalls_append, ensureToken_execCalls h, execCalls, List.mem_append,
        List.mem_singleton] at hc
      rcases hc with hc | hc
      · exact Or.inl hc
      · right
        subst hc
        simp [get_addToken]
    · rw [hr] at hc
      simp only [execCalls_append, ensureToken_execCalls h, execCalls, List.mem_append,
        List.mem_singleton] at hc
      rcases hc with hc | hc
      · exact Or.inl hc
      · right
        subst hc
        simp [get_addToken]
    · rw [hr] at hc
      rcases ih t1 (addToken rq m t1).1 (addToken rq m t1).2 w2 _ (some r) e1 c hc with hc | hc
      · simp only [execCalls_append, ensureToken_execCalls h, execCalls, List.mem_append,
          List.mem_singleton] at hc
        rcases hc with hc | hc
        · exact Or.inl hc
        · right
          subst hc
          simp [get_addToken]
      · exact Or.inr hc

/-- The first delegated call of a run that starts with no call on record. -/
theorem attempts_first_call {σ : Type} (d : Deps σ) (now : Time) (n : Nat)
    (t : oauthTransport) (rq : Request) (m : Heap) (w : σ) (tr : List Event)
    (resp : Option Response) (err : Option String) (htr : execCalls tr = [])
    (c : Snapshot × oauthTransport × ExecResult)
    (hc : (execCalls (attempts d now (n + 1) t rq m w tr resp err).trace).head? = some c) :
    c.1 = (addToken rq m c.2.1).1.snapshot (addToken rq m c.2.1).2 ∧
      (ensureToken d now t w tr).2.1 = c.2.1 := by
  rcases attempts_succ_cases d now n t rq m w tr resp err with
    ⟨e, t1, w1, tr1, h, hr⟩ | ⟨t1, w1, tr1, e1, w2, h, _, hr⟩ |
    ⟨t1, w1, tr1, r, e1, w2, h, _, _, hr⟩ | ⟨t1, w1, tr1, r, e1, w2, h, _, _, hr⟩
  · rw [hr] at hc
    simp [ensureToken_execCalls h, htr] at hc
  · rw [hr] at hc
    simp [execCalls_append, ensureToken_execCalls h, htr, execCalls] at hc
    subst hc
    simp [h]
  · rw [hr] at hc
    simp [execCalls_append, ensureToken_execCalls h, htr, execCalls] at hc
    subst hc
    simp [h]
  · rw [hr] at hc
    obtain ⟨y, hy⟩ := attempts_trace d now n t1 (addToken rq m t1).1 (addToken rq m t1).2 w2
      (tr1 ++ [Event.roundTrip ((addToken rq m t1).1.snapshot (addToken rq m t1).2) t1
        (some r, e1)]) (some r) e1
    rw [hy] at hc
    simp [execCalls_append, ensureToken_execCalls h, htr, execCalls] at hc
    subst hc
    simp [h]

/-- The loop as `RoundTrip` starts it. -/
theorem RoundTrip_outcome {σ : Type} (d : Deps σ) (t : oauthTransport) (req : Request)
    (m : Heap) (w : σ) :
    (RoundTrip d t req m w).outcome =
      (attempts d (d.Now w) (1 + 1) t { req with Header := cloneHeader req.Header } m w []
        none none).outcome := rfl

theorem RoundTrip_trace {σ : Type} (d : Deps σ) (t : oauthTransport) (req : Request)
    (m : Heap) (w : σ) :
    (RoundTrip d t req m w).trace =
      (attempts d (d.Now w) (1 + 1) t { req with Header := cloneHeader req.Header } m w []
        none none).trace := rfl

theorem RoundTrip_t {σ : Type} (d : Deps σ) (t : oauthTransport) (req : Request)
    (m : Heap) (w : σ) :
    (RoundTrip d t req m w).t =
      (attempts d (d.Now w) (1 + 1) t { req with Header := cloneHeader req.Header } m w []
        none none).t := rfl

/-! ## the claims -/

/-- C6: while the cached token is non-empty and the snapshot of the clock is strictly
before the cached expiration, `RoundTrip` makes no call to the token provider, whatever
the underlying executor returns, and the cached token and expiration are unchanged
afterwards. -/
theorem RoundTrip_fresh_token_no_exchange {σ : Type} (d : Deps σ) (t : oauthTransport)
    (req : Request) (m : Heap) (w : σ) (htok : t.token ≠ "")
    (hnow : (d.Now w).ns < t.expiration.ns) :
    authCalls (RoundTrip d t req m w).trace = 0 ∧ (RoundTrip d t req m w).t = t := by
  have hn : needsToken t (d.Now w) = false :=
    (needsToken_eq_false _ _).2 ⟨htok, le_of_lt hnow⟩
  have h := attempts_fresh d (d.Now w) (1 + 1) t { req with Header := cloneHeader req.Header }
    m w [] none none hn
  rw [RoundTrip_trace, RoundTrip_t]
  exact ⟨by simpa [authCalls] using h.2, h.1⟩

theorem RoundTrip_fresh_token_no_exchange_witness :
    (("T1" : String) ≠ "" ∧ ((100 : Int) < 200)) ∧
    authCalls (RoundTrip (ClientForJWT "jwt" scriptClient) ⟨"T1", ⟨200⟩⟩ (getReq [])
      (Heap.ofArrays [])
      ⟨⟨100⟩, [Exchange.decoded "" "T2" 3600],
        [(some (respOf 401), none), (some (respOf 500), none)]⟩).trace = 0 ∧
    (RoundTrip (ClientForJWT "jwt" scriptClient) ⟨"T1", ⟨200⟩⟩ (getReq [])
      (Heap.ofArrays [])
      ⟨⟨100⟩, [Exchange.decoded "" "T2" 3600],
        [(some (respOf 401), none), (some (respOf 500), none)]⟩).t = ⟨"T1", ⟨200⟩⟩ :=
  ⟨⟨by decide, by decide⟩,
    RoundTrip_fresh_token_no_exchange (ClientForJWT "jwt" scriptClient) ⟨"T1", ⟨200⟩⟩ (getReq [])
      (Heap.ofArrays [])
      ⟨⟨100⟩, [Exchange.decoded "" "T2" 3600],
        [(some (respOf 401), none), (some (respOf 500), none)]⟩ (by decide) (by decide)⟩

/-- C5: when the first delegated call returns a response whose status is not 401
(any other status, error statuses included) and no error, `RoundTrip` returns exactly
that response with a nil error, after exactly one call of the underlying executor. -/
theorem RoundTrip_passes_first_response {σ : Type} (d : Deps σ) (t : oauthTransport)
    (req : Request) (m : Heap) (w : σ) (q : Snapshot) (c : oauthTransport) (r : Response)
    (hfirst : (execCalls (RoundTrip d t req m w).trace).head? = some (q, c, (some r, none)))
    (hstatus : r.StatusCode ≠ StatusUnauthorized) :
    (RoundTrip d t req m w).outcome = Outcome.returned (some r) none ∧
      (execCalls (RoundTrip d t req m w).trace).length = 1 := by
  rw [RoundTrip_outcome]
  rw [RoundTrip_trace] at hfirst ⊢
  rcases attempts_succ_cases d (d.Now w) 1 t { req with Header := cloneHeader req.Header } m w []
      none none with
    ⟨e, t1, w1, tr1, h, hr⟩ | ⟨t1, w1, tr1, e1, w2, h, _, hr⟩ |
    ⟨t1, w1, tr1, r1, e1, w2, h, _, hs, hr⟩ | ⟨t1, w1, tr1, r1, e1, w2, h, _, hs, hr⟩
  · rw [hr] at hfirst
    simp [ensureToken_execCalls h, execCalls] at hfirst
  · rw [hr] at hfirst
    simp [execCalls_append, ensureToken_execCalls h, execCalls] at hfirst
  · rw [hr] at hfirst ⊢
    simp [execCalls_append, ensureToken_execCalls h, execCalls] at hfirst ⊢
    exact ⟨hfirst.2.2.1, hfirst.2.2.2⟩
  · exfalso
    rw [hr] at hfirst
    obtain ⟨y, hy⟩ := attempts_trace d (d.Now w) 1 t1
      (addToken { req with Header := cloneHeader req.Header } m t1).1
      (addToken { req with Header := cloneHeader req.Header } m t1).2 w2
      (tr1 ++ [Event.roundTrip
        ((addToken { req with Header := cloneHeader req.Header } m t1).1.snapshot
          (addToken { req with Header := cloneHeader req.Header } m t1).2) t1
        (some r1, e1)]) (some r1) e1
    rw [hy] at hfirst
    simp [execCalls_append, ensureToken_execCalls h, execCalls] at hfirst
    exact hstatus (hfirst.2.2.1 ▸ hs)

theorem RoundTrip_passes_first_response_witness :
    ((execCalls (RoundTrip (ClientForJWT "jwt" scriptClient) oauthTransport.zero
        (getReq [("Accept", ⟨0, 0, 1, 1⟩)]) (Heap.ofArrays [["text/csv"]])
        ⟨⟨100⟩, [Exchange.decoded "" "T1" 3600], [(some (respOf 503), none)]⟩).trace).head? =
      some (getSeen [("Accept", ["text/csv"]), ("Authorization", ["Bearer T1"])],
        ⟨"T1", ⟨3600000000100⟩⟩, (some (respOf 503), none)) ∧
      (respOf 503).StatusCode ≠ StatusUnauthorized) ∧
    (RoundTrip (ClientForJWT "jwt" scriptClient) oauthTransport.zero
        (getReq [("Accept", ⟨0, 0, 1, 1⟩)]) (Heap.ofArrays [["text/csv"]])
        ⟨⟨100⟩, [Exchange.decoded "" "T1" 3600], [(some (respOf 503), none)]⟩).outcome =
      Outcome.returned (some (respOf 503)) none ∧
    (execCalls (RoundTrip (ClientForJWT "jwt" scriptClient) oauthTransport.zero
        (getReq [("Accept", ⟨0, 0, 1, 1⟩)]) (Heap.ofArrays [["text/csv"]])
        ⟨⟨100⟩, [Exchange.decoded "" "T1" 3600], [(some (respOf 503), none)]⟩).trace).length = 1 :=
  ⟨⟨by decide, by decide⟩,
    RoundTrip_passes_first_response (ClientForJWT "jwt" scriptClient) oauthTransport.zero
      (getReq [("Accept", ⟨0, 0, 1, 1⟩)]) (Heap.ofArrays [["text/csv"]])
      ⟨⟨100⟩, [Exchange.decoded "" "T1" 3600], [(some (respOf 503), none)]⟩
      (getSeen [("Accept", ["text/csv"]), ("Authorization", ["Bearer T1"])])
      ⟨"T1", ⟨3600000000100⟩⟩ (respOf 503) (by decide) (by decide)⟩

/-- C4: whatever the token provider and the underlying executor do, `RoundTrip` calls
the underlying executor at most twice; and when both attempts return a response with
status 401, it returns exactly what the second call returned, the second response and
the error value that came with it (nil for an executor that returned a response), with
no third attempt and no error of its own. -/
theorem RoundTrip_at_most_two_attempts {σ : Type} (d : Deps σ) (t : oauthTransport)
    (req : Request) (m : Heap) (w : σ) :
    (execCalls (RoundTrip d t req m w).trace).length ≤ 2 ∧
    ∀ (q1 q2 : Snapshot) (c1 c2 : oauthTransport) (r1 r2 : Response) (e1 e2 : Option String),
      execCalls (RoundTrip d t req m w).trace =
          [(q1, c1, (some r1, e1)), (q2, c2, (some r2, e2))] →
        r1.StatusCode = StatusUnauthorized → r2.StatusCode = StatusUnauthorized →
        (RoundTrip d t req m w).outcome = Outcome.returned (some r2) e2 := by
  constructor
  · rw [RoundTrip_trace]
    have := attempts_execCalls_le d (d.Now w) (1 + 1) t
      { req with Header := cloneHeader req.Header } m w [] none none
    simpa [execCalls] using this
  · intro q1 q2 c1 c2 r1 r2 e1 e2 hcalls _ _
    rw [RoundTrip_outcome]
    rw [RoundTrip_trace] at hcalls
    rcases attempts_succ_cases d (d.Now w) 1 t { req with Header := cloneHeader req.Header } m w
        [] none none with
      ⟨e, t1, w1, tr1, h, hr⟩ | ⟨t1, w1, tr1, e1, w2, h, _, hr⟩ |
      ⟨t1, w1, tr1, ra, ea, w2, h, _, hs, hr⟩ | ⟨t1, w1, tr1, ra, ea, w2, h, _, hs, hr⟩
    · rw [hr] at hcalls
      simp [ensureToken_execCalls h, execCalls] at hcalls
    · rw [hr] at hcalls
      simp [execCalls_append, ensureToken_execCalls h, execCalls] at hcalls
    · rw [hr] at hcalls
      simp [execCalls_append, ensureToken_execCalls h, execCalls] at hcalls
    · rw [hr] at hcalls ⊢
      have hx : execCalls (tr1 ++ [Event.roundTrip
          ((addToken { req with Header := cloneHeader req.Header } m t1).1.snapshot
            (addToken { req with Header := cloneHeader req.Header } m t1).2) t1 (some ra, ea)]) =
          [((addToken { req with Header := cloneHeader req.Header } m t1).1.snapshot
            (addToken { req with Header := cloneHeader req.Header } m t1).2, t1,
              (some ra, ea))] := by
        simp [execCalls_append, ensureToken_execCalls h, execCalls]
      rcases attempts_succ_cases d (d.Now w) 0 t1
          (addToken { req with Header := cloneHeader req.Header } m t1).1
          (addToken { req with Header := cloneHeader req.Header } m t1).2 w2
          (tr1 ++ [Event.roundTrip
            ((addToken { req with Header := cloneHeader req.Header } m t1).1.snapshot
              (addToken { req with Header := cloneHeader req.Header } m t1).2) t1
            (some ra, ea)]) (some ra) ea with
        ⟨e, t2, w3, tr2, h2, hr2⟩ | ⟨t2, w3, tr2, eb, w4, h2, _, hr2⟩ |
        ⟨t2, w3, tr2, rb, eb, w4, h2, _, _, hr2⟩ | ⟨t2, w3, tr2, rb, eb, w4, h2, _, _, hr2⟩
      · rw [hr2] at hcalls
        simp [ensureToken_execCalls h2, hx] at hcalls
      · rw [hr2] at hcalls
        simp [execCalls_append, ensureToken_execCalls h2, hx, execCalls] at hcalls
      · rw [hr2] at hcalls ⊢
        simp [execCalls_append, ensureToken_execCalls h2, hx, execCalls] at hcalls ⊢
        exact ⟨hcalls.2.2.2.1, hcalls.2.2.2.2⟩
      · rw [hr2] at hcalls ⊢
        simp [attempts, execCalls_append, ensureToken_execCalls h2, hx, execCalls] at hcalls ⊢
        exact ⟨hcalls.2.2.2.1, hcalls.2.2.2.2⟩

theorem RoundTrip_at_most_two_attempts_witness :
    (execCalls (RoundTrip (ClientForJWT "jwt" scriptClient) ⟨"T1", ⟨200⟩⟩ (getReq [])
        (Heap.ofArrays [])
        ⟨⟨100⟩, [Exchange.decoded "" "T2" 3600],
          [(some ⟨401, "401 Unauthorized", "first"⟩, none),
           (some ⟨401, "401 Unauthorized", "second"⟩, none),
           (some ⟨200, "200 OK", "third"⟩, none)]⟩).trace =
      [(getSeen [("Authorization", ["Bearer T1"])], ⟨"T1", ⟨200⟩⟩,
          (some ⟨401, "401 Unauthorized", "first"⟩, none)),
       (getSeen [("Authorization", ["Bearer T1", "Bearer T1"])], ⟨"T1", ⟨200⟩⟩,
          (some ⟨401, "401 Unauthorized", "second"⟩, none))]) ∧
    (RoundTrip (ClientForJWT "jwt" scriptClient) ⟨"T1", ⟨200⟩⟩ (getReq [])
        (Heap.ofArrays [])
        ⟨⟨100⟩, [Exchange.decoded "" "T2" 3600],
          [(some ⟨401, "401 Unauthorized", "first"⟩, none),
           (some ⟨401, "401 Unauthorized", "second"⟩, none),
           (some ⟨200, "200 OK", "third"⟩, none)]⟩).outcome =
      Outcome.returned (some ⟨401, "401 Unauthorized", "second"⟩) none :=
  ⟨by decide,
    (RoundTrip_at_most_two_attempts (ClientForJWT "jwt" scriptClient) ⟨"T1", ⟨200⟩⟩ (getReq [])
        (Heap.ofArrays [])
        ⟨⟨100⟩, [Exchange.decoded "" "T2" 3600],
          [(some ⟨401, "401 Unauthorized", "first"⟩, none),
           (some ⟨401, "401 Unauthorized", "second"⟩, none),
           (some ⟨200, "200 OK", "third"⟩, none)]⟩).2
      (getSeen [("Authorization", ["Bearer T1"])])
      (getSeen [("Authorization", ["Bearer T1", "Bearer T1"])])
      ⟨"T1", ⟨200⟩⟩ ⟨"T1", ⟨200⟩⟩
      ⟨401, "401 Unauthorized", "first"⟩ ⟨401, "401 Unauthorized", "second"⟩ none none
      (by decide) (by decide) (by decide)⟩

/-- C3: when the transport finds its cached token unusable (empty, or the snapshot of
the clock after the cached expiration) and the token exchange of the first attempt fails
with error `e`, `RoundTrip` returns no response and the error "Authorization failed: "
followed by the message of `e`, and the underlying executor is never called. For the
closure of `ClientForJWT`, an error string `s` reported by the server is in that
message: it reads "Authorization failed: Failed: " followed by `s`. -/
theorem RoundTrip_exchange_failure {σ : Type} (d : Deps σ) (t : oauthTransport)
    (req : Request) (m : Heap) (w : σ)
    (hneed : t.token = "" ∨ t.expiration.ns < (d.Now w).ns) :
    (∀ (e : String) (t1 : oauthTransport) (w1 : σ), d.authenticate t w = (some e, t1, w1) →
      (RoundTrip d t req m w).outcome =
          Outcome.returned none (some ("Authorization failed: " ++ e)) ∧
        execCalls (RoundTrip d t req m w).trace = []) ∧
    (∀ (jwt : String) (client : Client σ) (s a : String) (x : Int) (w1 : σ),
      d = ClientForJWT jwt client →
      client.PostForm "https://accounts.google.com/o/oauth2/token"
          [("grant_type", ["urn:ietf:params:oauth:grant-type:jwt-bearer"]), ("assertion", [jwt])]
          w = (Exchange.decoded s a x, w1) →
      s ≠ "" →
      (RoundTrip d t req m w).outcome =
          Outcome.returned none (some ("Authorization failed: " ++ ("Failed: " ++ s))) ∧
        execCalls (RoundTrip d t req m w).trace = []) := by
  have hn : needsToken t (d.Now w) = true := (needsToken_eq_true _ _).2 hneed
  have main : ∀ (e : String) (t1 : oauthTransport) (w1 : σ),
      d.authenticate t w = (some e, t1, w1) →
      (RoundTrip d t req m w).outcome =
          Outcome.returned none (some ("Authorization failed: " ++ e)) ∧
        execCalls (RoundTrip d t req m w).trace = [] := by
    intro e t1 w1 hauth
    have hens : ensureToken d (d.Now w) t w [] = (some e, t1, w1, [Event.authenticate (some e)]) := by
      simp [ensureToken, hn, hauth]
    rw [RoundTrip_outcome, RoundTrip_trace]
    simp [attempts, hens, execCalls]
  refine ⟨main, ?_⟩
  intro jwt client s a x w1 hd hpost hs
  refine main ("Failed: " ++ s) t w1 ?_
  subst hd
  simp [ClientForJWT, ClientForJWT.authenticate, hpost, hs]

theorem RoundTrip_exchange_failure_witness :
    (("" : String) = "" ∨ (0 : Int) < 100) ∧
    (RoundTrip (ClientForJWT "jwt" scriptClient) oauthTransport.zero (getReq [])
        (Heap.ofArrays [])
        ⟨⟨100⟩, [Exchange.decoded "invalid_grant" "" 0], [(some (respOf 200), none)]⟩).outcome =
      Outcome.returned none (some "Authorization failed: Failed: invalid_grant") ∧
    execCalls (RoundTrip (ClientForJWT "jwt" scriptClient) oauthTransport.zero (getReq [])
        (Heap.ofArrays [])
        ⟨⟨100⟩, [Exchange.decoded "invalid_grant" "" 0], [(some (respOf 200), none)]⟩).trace = [] :=
  ⟨Or.inl rfl,
    (RoundTrip_exchange_failure (ClientForJWT "jwt" scriptClient) oauthTransport.zero (getReq [])
        (Heap.ofArrays [])
        ⟨⟨100⟩, [Exchange.decoded "invalid_grant" "" 0], [(some (respOf 200), none)]⟩
        (Or.inl rfl)).2 "jwt" scriptClient "invalid_grant" "" 0
      ⟨⟨100⟩, [], [(some (respOf 200), none)]⟩ rfl rfl (by decide)⟩

/-- C8, amended: at every attempt (the first and the retry), with any header set the
caller supplies, `RoundTrip` appends "Bearer " followed by the cached token of that
moment as the last value of the Authorization entry of the request it hands to the
underlying executor; at the first attempt the entry holds the values the caller
supplied under that key, followed by that one value, so it is exactly that value when
the caller supplied none. -/
theorem RoundTrip_appends_bearer {σ : Type} (d : Deps σ) (t : oauthTransport)
    (req : Request) (m : Heap) (w : σ) (hk : (Header.keys req.Header).Nodup) :
    (∀ c ∈ execCalls (RoundTrip d t req m w).trace,
      (c.1.get "Authorization").getLast? = some ("Bearer " ++ c.2.1.token)) ∧
    (∀ c, (execCalls (RoundTrip d t req m w).trace).head? = some c →
      c.1.get "Authorization" =
        (req.snapshot m).get "Authorization" ++ ["Bearer " ++ c.2.1.token]) := by
  rw [RoundTrip_trace]
  constructor
  · intro c hc
    rcases attempts_execCalls_bearer d (d.Now w) (1 + 1) t
      { req with Header := cloneHeader req.Header } m w [] none none c hc with h | h
    · simp [execCalls] at h
    · exact h
  · intro c hc
    have h := attempts_first_call d (d.Now w) 1 t { req with Header := cloneHeader req.Header }
      m w [] none none rfl c hc
    rw [h.1, get_addToken, cloneHeader_eq req.Header hk]

theorem RoundTrip_appends_bearer_witness :
    (Header.keys (getReq [("Authorization", ⟨0, 0, 1, 2⟩), ("Accept", ⟨0, 1, 1, 1⟩)]).Header).Nodup ∧
    (∀ c ∈ execCalls (RoundTrip (ClientForJWT "jwt" scriptClient) ⟨"T1", ⟨200⟩⟩
        (getReq [("Authorization", ⟨0, 0, 1, 2⟩), ("Accept", ⟨0, 1, 1, 1⟩)])
        (Heap.ofArrays [["Basic dXNlcg==", "text/csv"]])
        ⟨⟨100⟩, [], [(some (respOf 401), none), (some (respOf 200), none)]⟩).trace,
      (c.1.get "Authorization").getLast? = some ("Bearer " ++ c.2.1.token)) ∧
    (∀ c, (execCalls (RoundTrip (ClientForJWT "jwt" scriptClient) ⟨"T1", ⟨200⟩⟩
        (getReq [("Authorization", ⟨0, 0, 1, 2⟩), ("Accept", ⟨0, 1, 1, 1⟩)])
        (Heap.ofArrays [["Basic dXNlcg==", "text/csv"]])
        ⟨⟨100⟩, [], [(some (respOf 401), none), (some (respOf 200), none)]⟩).trace).head? = some c →
      c.1.get "Authorization" =
        ((getReq [("Authorization", ⟨0, 0, 1, 2⟩), ("Accept", ⟨0, 1, 1, 1⟩)]).snapshot
          (Heap.ofArrays [["Basic dXNlcg==", "text/csv"]])).get "Authorization" ++
            ["Bearer " ++ c.2.1.token]) :=
  ⟨by decide,
    RoundTrip_appends_bearer (ClientForJWT "jwt" scriptClient) ⟨"T1", ⟨200⟩⟩
      (getReq [("Authorization", ⟨0, 0, 1, 2⟩), ("Accept", ⟨0, 1, 1, 1⟩)])
      (Heap.ofArrays [["Basic dXNlcg==", "text/csv"]])
      ⟨⟨100⟩, [], [(some (respOf 401), none), (some (respOf 200), none)]⟩ (by decide)⟩

/-- C8 as stated fails: a caller whose header set already carries an Authorization entry
sees the request of the first attempt leave with that entry first and the bearer value
second, so neither the entry nor its first value (what `Header.Get` reads) is "Bearer "
followed by the cached token. -/
theorem RoundTrip_authorization_not_exact :
    (execCalls (RoundTrip (ClientForJWT "jwt" scriptClient) ⟨"T1", ⟨200⟩⟩
        (getReq [("Authorization", ⟨0, 0, 1, 1⟩)]) (Heap.ofArrays [["Basic dXNlcg=="]])
        ⟨⟨100⟩, [], [(some (respOf 200), none)]⟩).trace).map
      (fun c => (c.1.get "Authorization", c.2.1.token)) =
      [(["Basic dXNlcg==", "Bearer T1"], "T1")] ∧
    ¬ (∀ c ∈ execCalls (RoundTrip (ClientForJWT "jwt" scriptClient) ⟨"T1", ⟨200⟩⟩
        (getReq [("Authorization", ⟨0, 0, 1, 1⟩)]) (Heap.ofArrays [["Basic dXNlcg=="]])
        ⟨⟨100⟩, [], [(some (respOf 200), none)]⟩).trace,
      c.1.get "Authorization" = ["Bearer " ++ c.2.1.token] ∨
        (c.1.get "Authorization").head? = some ("Bearer " ++ c.2.1.token)) := by
  decide

/-- C7, amended: when the snapshot of the clock is strictly after the cached expiration
and the exchange succeeds, `RoundTrip` calls the token provider exactly once before the
first delegated call, and that call is made with the cache holding the value and expiry
the exchange has just stored. -/
theorem RoundTrip_expired_token_exchanges_once {σ : Type} (d : Deps σ) (t : oauthTransport)
    (req : Request) (m : Heap) (w : σ) (t1 : oauthTransport) (w1 : σ)
    (hexp : t.expiration.ns < (d.Now w).ns)
    (hauth : d.authenticate t w = (none, t1, w1)) :
    ∃ res rest, (RoundTrip d t req m w).trace =
      Event.authenticate none ::
        Event.roundTrip
            ((addToken { req with Header := cloneHeader req.Header } m t1).1.snapshot
              (addToken { req with Header := cloneHeader req.Header } m t1).2) t1 res ::
          rest := by
  have hn : needsToken t (d.Now w) = true := (needsToken_eq_true _ _).2 (Or.inr hexp)
  have hens : ensureToken d (d.Now w) t w [] = (none, t1, w1, [Event.authenticate none]) := by
    simp [ensureToken, hn, hauth]
  rw [RoundTrip_trace]
  rcases attempts_succ_cases d (d.Now w) 1 t { req with Header := cloneHeader req.Header } m w []
      none none with
    ⟨e, t2, w2, tr2, h, hr⟩ | ⟨t2, w2, tr2, e1, w3, h, _, hr⟩ |
    ⟨t2, w2, tr2, r, e1, w3, h, _, _, hr⟩ | ⟨t2, w2, tr2, r, e1, w3, h, _, _, hr⟩
  · rw [hens] at h
    simp at h
  · rw [hens] at h
    simp only [Prod.mk.injEq, true_and] at h
    obtain ⟨h1, _, h3⟩ := h
    subst h1 h3
    rw [hr]
    exact ⟨(none, e1), [], rfl⟩
  · rw [hens] at h
    simp only [Prod.mk.injEq, true_and] at h
    obtain ⟨h1, _, h3⟩ := h
    subst h1 h3
    rw [hr]
    exact ⟨(some r, e1), [], rfl⟩
  · rw [hens] at h
    simp only [Prod.mk.injEq, true_and] at h
    obtain ⟨h1, _, h3⟩ := h
    subst h1 h3
    rw [hr]
    obtain ⟨y, hy⟩ := attempts_trace d (d.Now w) 1 t1
      (addToken { req with Header := cloneHeader req.Header } m t1).1
      (addToken { req with Header := cloneHeader req.Header } m t1).2 w3
      ([Event.authenticate none] ++
        [Event.roundTrip
          ((addToken { req with Header := cloneHeader req.Header } m t1).1.snapshot
            (addToken { req with Header := cloneHeader req.Header } m t1).2) t1
          (some r, e1)]) (some r) e1
    rw [hy]
    exact ⟨(some r, e1), y, rfl⟩

theorem RoundTrip_expired_token_exchanges_once_witness :
    ((100 : Int) < 101 ∧
      (ClientForJWT "jwt" scriptClient).authenticate ⟨"T1", ⟨100⟩⟩
          ⟨⟨101⟩, [Exchange.decoded "" "T2" 3600], [(some (respOf 200), none)]⟩ =
        (none, ⟨"T2", ⟨3600000000101⟩⟩, ⟨⟨101⟩, [], [(some (respOf 200), none)]⟩)) ∧
    ∃ res rest, (RoundTrip (ClientForJWT "jwt" scriptClient) ⟨"T1", ⟨100⟩⟩ (getReq [])
        (Heap.ofArrays [])
        ⟨⟨101⟩, [Exchange.decoded "" "T2" 3600], [(some (respOf 200), none)]⟩).trace =
      Event.authenticate none ::
        Event.roundTrip
          ((addToken { getReq [] with Header := cloneHeader (getReq []).Header }
            (Heap.ofArrays []) ⟨"T2", ⟨3600000000101⟩⟩).1.snapshot
              (addToken { getReq [] with Header := cloneHeader (getReq []).Header }
                (Heap.ofArrays []) ⟨"T2", ⟨3600000000101⟩⟩).2)
          ⟨"T2", ⟨3600000000101⟩⟩ res :: rest :=
  ⟨⟨by decide, by decide⟩,
    RoundTrip_expired_token_exchanges_once (ClientForJWT "jwt" scriptClient) ⟨"T1", ⟨100⟩⟩
      (getReq []) (Heap.ofArrays [])
      ⟨⟨101⟩, [Exchange.decoded "" "T2" 3600], [(some (respOf 200), none)]⟩
      ⟨"T2", ⟨3600000000101⟩⟩ ⟨⟨101⟩, [], [(some (respOf 200), none)]⟩ (by decide) (by decide)⟩

/-- C7 as stated fails at the boundary: with a non-empty cached token and the snapshot
of the clock equal to the cached expiration, an exchange that would succeed is never
made; the request leaves with the old token and the cache keeps it. -/
theorem RoundTrip_no_exchange_at_expiry :
    (ClientForJWT "jwt" scriptClient).Now
        ⟨⟨100⟩, [Exchange.decoded "" "T2" 3600], [(some (respOf 200), none)]⟩ = ⟨100⟩ ∧
    ((ClientForJWT "jwt" scriptClient).authenticate ⟨"T1", ⟨100⟩⟩
        ⟨⟨100⟩, [Exchange.decoded "" "T2" 3600], [(some (respOf 200), none)]⟩).1 = none ∧
    (RoundTrip (ClientForJWT "jwt" scriptClient) ⟨"T1", ⟨100⟩⟩ (getReq []) (Heap.ofArrays [])
        ⟨⟨100⟩, [Exchange.decoded "" "T2" 3600], [(some (respOf 200), none)]⟩).trace =
      [Event.roundTrip (getSeen [("Authorization", ["Bearer T1"])]) ⟨"T1", ⟨100⟩⟩
        (some (respOf 200), none)] ∧
    authCalls (RoundTrip (ClientForJWT "jwt" scriptClient) ⟨"T1", ⟨100⟩⟩ (getReq [])
        (Heap.ofArrays [])
        ⟨⟨100⟩, [Exchange.decoded "" "T2" 3600], [(some (respOf 200), none)]⟩).trace = 0 ∧
    (RoundTrip (ClientForJWT "jwt" scriptClient) ⟨"T1", ⟨100⟩⟩ (getReq []) (Heap.ofArrays [])
        ⟨⟨100⟩, [Exchange.decoded "" "T2" 3600], [(some (respOf 200), none)]⟩).t =
      ⟨"T1", ⟨100⟩⟩ := by
  decide

/-- C10, amended: for every decoded exchange response (error, access_token, expires_in)
the closure built by `ClientForJWT` succeeds exactly when error is empty and access_token
is not; on success it stores access_token as the cached token and, as the expiration,
the clock read after the exchange (not the clock at the moment the closure is called)
plus expires_in times `time.Second` computed in 64-bit `time.Duration` arithmetic, which
is expires_in seconds whenever expires_in lies between -9223372036 and 9223372036; on
every failure it leaves the cached token and the expiration as they were. -/
theorem authenticate_decoded {σ : Type} (jwt : String) (client : Client σ)
    (t : oauthTransport) (w : σ) (s a : String) (x : Int) (w1 : σ)
    (hpost : client.PostForm "https://accounts.google.com/o/oauth2/token"
      [("grant_type", ["urn:ietf:params:oauth:grant-type:jwt-bearer"]), ("assertion", [jwt])]
      w = (Exchange.decoded s a x, w1)) :
    ((ClientForJWT.authenticate jwt client t w).1 = none ↔ (s = "" ∧ a ≠ "")) ∧
    ((ClientForJWT.authenticate jwt client t w).1 = none →
      (ClientForJWT.authenticate jwt client t w).2.1 =
        ⟨a, (client.Now w1).Add (wrapInt64 (x * 1000000000))⟩) ∧
    ((ClientForJWT.authenticate jwt client t w).1 = none →
      -9223372036 ≤ x → x ≤ 9223372036 →
      (ClientForJWT.authenticate jwt client t w).2.1 =
        ⟨a, ⟨(client.Now w1).ns + x * 1000000000⟩⟩) ∧
    ((ClientForJWT.authenticate jwt client t w).1 ≠ none →
      (ClientForJWT.authenticate jwt client t w).2.1 = t) := by
  have hwrap : -9223372036 ≤ x → x ≤ 9223372036 →
      wrapInt64 (x * 1000000000) = x * 1000000000 := by
    intro h1 h2
    unfold wrapInt64
    have : (x * 1000000000 + 2 ^ 63) % 2 ^ 64 = x * 1000000000 + 2 ^ 63 :=
      Int.emod_eq_of_lt (by norm_num; omega) (by norm_num; omega)
    rw [this]
    ring
  by_cases hs : s = ""
  · by_cases ha : a = ""
    · simp [ClientForJWT.authenticate, hpost, hs, ha]
    · simp only [ClientForJWT.authenticate, hpost, hs, ha, Duration.mul, Second, Time.Add]
      refine ⟨by simp [ha], by simp, ?_, by simp⟩
      intro _ h1 h2
      simp [hwrap h1 h2]
  · simp [ClientForJWT.authenticate, hpost, hs]

theorem authenticate_decoded_witness :
    (slowClient.PostForm "https://accounts.google.com/o/oauth2/token"
      [("grant_type", ["urn:ietf:params:oauth:grant-type:jwt-bearer"]), ("assertion", ["jwt"])]
      ⟨⟨100⟩, [Exchange.decoded "" "T1" 3600], []⟩ =
        (Exchange.decoded "" "T1" 3600, ⟨⟨5000000100⟩, [], []⟩)) ∧
    (ClientForJWT.authenticate "jwt" slowClient oauthTransport.zero
        ⟨⟨100⟩, [Exchange.decoded "" "T1" 3600], []⟩).1 = none ∧
    (ClientForJWT.authenticate "jwt" slowClient oauthTransport.zero
        ⟨⟨100⟩, [Exchange.decoded "" "T1" 3600], []⟩).2.1 =
      ⟨"T1", ⟨5000000100 + 3600 * 1000000000⟩⟩ :=
  ⟨by decide, by decide,
    (authenticate_decoded "jwt" slowClient oauthTransport.zero
      ⟨⟨100⟩, [Exchange.decoded "" "T1" 3600], []⟩ "" "T1" 3600 ⟨⟨5000000100⟩, [], []⟩
      (by decide)).2.2.1 (by decide) (by decide) (by decide)⟩

/-- C10 as stated fails in two ways. The clock is read after the exchange: when the
exchange takes five seconds, a closure called at clock 100 with expires_in 3600 stores
the clock after the exchange plus 3600 seconds, not the clock of the call plus 3600
seconds. And the lifetime is multiplied in 64 bits: with expires_in 9223372037 the
product with `time.Second` leaves the range, the closure still succeeds, and the
expiration it stores lies before the clock reading instead of 9223372037 seconds
after it. -/
theorem authenticate_expiration_differs :
    (slowClient.Now ⟨⟨100⟩, [Exchange.decoded "" "T1" 3600], []⟩ = ⟨100⟩ ∧
      (ClientForJWT.authenticate "jwt" slowClient oauthTransport.zero
          ⟨⟨100⟩, [Exchange.decoded "" "T1" 3600], []⟩).1 = none ∧
      (ClientForJWT.authenticate "jwt" slowClient oauthTransport.zero
          ⟨⟨100⟩, [Exchange.decoded "" "T1" 3600], []⟩).2.1.expiration =
        ⟨5000000100 + 3600 * 1000000000⟩ ∧
      (ClientForJWT.authenticate "jwt" slowClient oauthTransport.zero
          ⟨⟨100⟩, [Exchange.decoded "" "T1" 3600], []⟩).2.1.expiration ≠
        ⟨100 + 3600 * 1000000000⟩) ∧
    ((ClientForJWT.authenticate "jwt" scriptClient oauthTransport.zero
          ⟨⟨100⟩, [Exchange.decoded "" "T1" 9223372037], []⟩).1 = none ∧
      (ClientForJWT.authenticate "jwt" scriptClient oauthTransport.zero
          ⟨⟨100⟩, [Exchange.decoded "" "T1" 9223372037], []⟩).2.1.expiration =
        ⟨100 - 9223372036709551616⟩ ∧
      (ClientForJWT.authenticate "jwt" scriptClient oauthTransport.zero
          ⟨⟨100⟩, [Exchange.decoded "" "T1" 9223372037], []⟩).2.1.expiration ≠
        ⟨100 + 9223372037 * 1000000000⟩) := by
  decide

/-- C9 is not what the code does: the cloned map holds the slice headers of the
caller, so the append of the Authorization value writes into the backing array of the
caller. With Authorization and Accept held in one array, Authorization first with room
for one more string, the caller finds its request object with the same header map
after the call and reads "Bearer T1" under Accept, where "text/csv" stood before. -/
theorem RoundTrip_overwrites_caller_header :
    (getReq [("Authorization", ⟨0, 0, 1, 2⟩), ("Accept", ⟨0, 1, 1, 1⟩)]).snapshot
        (Heap.ofArrays [["Basic dXNlcg==", "text/csv"]]) =
      getSeen [("Authorization", ["Basic dXNlcg=="]), ("Accept", ["text/csv"])] ∧
    (RoundTrip (ClientForJWT "jwt" scriptClient) ⟨"T1", ⟨200⟩⟩
        (getReq [("Authorization", ⟨0, 0, 1, 2⟩), ("Accept", ⟨0, 1, 1, 1⟩)])
        (Heap.ofArrays [["Basic dXNlcg==", "text/csv"]])
        ⟨⟨100⟩, [], [(some (respOf 200), none)]⟩).outcome =
      Outcome.returned (some (respOf 200)) none ∧
    (RoundTrip (ClientForJWT "jwt" scriptClient) ⟨"T1", ⟨200⟩⟩
        (getReq [("Authorization", ⟨0, 0, 1, 2⟩), ("Accept", ⟨0, 1, 1, 1⟩)])
        (Heap.ofArrays [["Basic dXNlcg==", "text/csv"]])
        ⟨⟨100⟩, [], [(some (respOf 200), none)]⟩).req =
      getReq [("Authorization", ⟨0, 0, 1, 2⟩), ("Accept", ⟨0, 1, 1, 1⟩)] ∧
    (RoundTrip (ClientForJWT "jwt" scriptClient) ⟨"T1", ⟨200⟩⟩
        (getReq [("Authorization", ⟨0, 0, 1, 2⟩), ("Accept", ⟨0, 1, 1, 1⟩)])
        (Heap.ofArrays [["Basic dXNlcg==", "text/csv"]])
        ⟨⟨100⟩, [], [(some (respOf 200), none)]⟩).seen =
      getSeen [("Authorization", ["Basic dXNlcg=="]), ("Accept", ["Bearer T1"])] ∧
    (RoundTrip (ClientForJWT "jwt" scriptClient) ⟨"T1", ⟨200⟩⟩
        (getReq [("Authorization", ⟨0, 0, 1, 2⟩), ("Accept", ⟨0, 1, 1, 1⟩)])
        (Heap.ofArrays [["Basic dXNlcg==", "text/csv"]])
        ⟨⟨100⟩, [], [(some (respOf 200), none)]⟩).seen ≠
      (getReq [("Authorization", ⟨0, 0, 1, 2⟩), ("Accept", ⟨0, 1, 1, 1⟩)]).snapshot
        (Heap.ofArrays [["Basic dXNlcg==", "text/csv"]]) := by
  decide

/-- C1 is not what the code does: with an unexpired cached token "T1", a 401 on the
first attempt and a token provider ready to hand out "T2", `RoundTrip` never calls the
token provider; the retry leaves with "T1" again (now twice in the Authorization entry),
and "T1" is still the cached token when the 200 response is returned. -/
theorem RoundTrip_retry_reuses_rejected_token :
    (RoundTrip (ClientForJWT "jwt" scriptClient) ⟨"T1", ⟨200⟩⟩ (getReq []) (Heap.ofArrays [])
        ⟨⟨100⟩, [Exchange.decoded "" "T2" 3600],
          [(some (respOf 401), none), (some (respOf 200), none)]⟩).trace =
      [Event.roundTrip (getSeen [("Authorization", ["Bearer T1"])]) ⟨"T1", ⟨200⟩⟩
          (some (respOf 401), none),
       Event.roundTrip (getSeen [("Authorization", ["Bearer T1", "Bearer T1"])]) ⟨"T1", ⟨200⟩⟩
          (some (respOf 200), none)] ∧
    authCalls (RoundTrip (ClientForJWT "jwt" scriptClient) ⟨"T1", ⟨200⟩⟩ (getReq [])
        (Heap.ofArrays [])
        ⟨⟨100⟩, [Exchange.decoded "" "T2" 3600],
          [(some (respOf 401), none), (some (respOf 200), none)]⟩).trace = 0 ∧
    (RoundTrip (ClientForJWT "jwt" scriptClient) ⟨"T1", ⟨200⟩⟩ (getReq []) (Heap.ofArrays [])
        ⟨⟨100⟩, [Exchange.decoded "" "T2" 3600],
          [(some (respOf 401), none), (some (respOf 200), none)]⟩).t = ⟨"T1", ⟨200⟩⟩ ∧
    (RoundTrip (ClientForJWT "jwt" scriptClient) ⟨"T1", ⟨200⟩⟩ (getReq []) (Heap.ofArrays [])
        ⟨⟨100⟩, [Exchange.decoded "" "T2" 3600],
          [(some (respOf 401), none), (some (respOf 200), none)]⟩).outcome =
      Outcome.returned (some (respOf 200)) none := by
  decide

/-- C2 is not what the code does: when the underlying executor fails (no response and a
transport error), `RoundTrip` reads `resp.StatusCode` through the nil response and
panics after its single call of the executor, instead of returning the error. -/
theorem RoundTrip_executor_failure_panics :
    (RoundTrip (ClientForJWT "jwt" scriptClient) ⟨"T1", ⟨200⟩⟩ (getReq []) (Heap.ofArrays [])
        ⟨⟨100⟩, [], [(none, some "dial tcp: connection refused")]⟩).outcome =
      Outcome.panicked ∧
    execCalls (RoundTrip (ClientForJWT "jwt" scriptClient) ⟨"T1", ⟨200⟩⟩ (getReq [])
        (Heap.ofArrays [])
        ⟨⟨100⟩, [], [(none, some "dial tcp: connection refused")]⟩).trace =
      [(getSeen [("Authorization", ["Bearer T1"])], ⟨"T1", ⟨200⟩⟩,
        (none, some "dial tcp: connection refused"))] := by
  decide

end googleapi
